import Mathlib

/-!
Verification development for the rollout buffer and PPO update engine of the
`ppo-parallel` repository (`src/core/learners/rollout_storage.py` and
`src/core/learners/ppo.py`).

All tensor arithmetic in `compute_returns` is elementwise over the environment
axis, so each array of shape `(T+1, N, 1)` is modelled per environment as a
scalar time series `Nat → ℚ` (the slice at a fixed environment index); a
statement proved for arbitrary series holds for every environment.  The Python
backward `for` loop is embedded as a `List.foldl` over `(List.range T).reverse`
acting on an explicit state (the mutable `gae` accumulator and the mutable
`returns` array), exactly mirroring the imperative code, and is then related to
a functional recursion by the fold lemmas below.
-/

namespace PPOParallel

/-- State update of one iteration of the backward loops that carry a scalar
accumulator (the `gae` variable): `f` computes the new accumulator from the old
one and the step index, and `o` computes the value written into `returns[step]`
from the new accumulator and the step index. -/
def accBody (f : ℚ → Nat → ℚ) (o : ℚ → Nat → ℚ) :
    ℚ × (Nat → ℚ) → Nat → ℚ × (Nat → ℚ) :=
  fun s step => (f s.1 step, Function.update s.2 step (o (f s.1 step) step))

/-- State update of one iteration of the backward loops that read
`returns[step + 1]` and write `returns[step]` (the non-GAE branches). -/
def arrBody (f : ℚ → Nat → ℚ) : (Nat → ℚ) → Nat → (Nat → ℚ) :=
  fun r step => Function.update r step (f (r (step + 1)) step)

/-- Backward recursion seeded with value `g` at distance `n` above position
`t`: `accSeed f g n t` is the value at position `t` obtained by applying the
backward step `f` a total of `n` times starting from the seed `g` at position
`t + n`. -/
def accSeed (f : ℚ → Nat → ℚ) (g : ℚ) : Nat → Nat → ℚ
  | 0, _ => g
  | n + 1, t => f (accSeed f g n (t + 1)) t

/-- Accumulator update of the GAE branch with proper time limits
(`rollout_storage.py` lines 153-160): `delta` plus the discounted carried
`gae`, then masked by `time_limit_masks[step + 1]`. -/
def gaeStepTl (gamma gae_lambda : ℚ)
    (rewards value_preds done_masks time_limit_masks : Nat → ℚ)
    (gae : ℚ) (step : Nat) : ℚ :=
  (rewards step + gamma * value_preds (step + 1) * done_masks (step + 1)
      - value_preds step
      + gamma * gae_lambda * done_masks (step + 1) * gae)
    * time_limit_masks (step + 1)

/-- Accumulator update of the GAE branch without the time-limit correction
(`rollout_storage.py` lines 177-183). -/
def gaeStep (gamma gae_lambda : ℚ) (rewards value_preds done_masks : Nat → ℚ)
    (gae : ℚ) (step : Nat) : ℚ :=
  rewards step + gamma * value_preds (step + 1) * done_masks (step + 1)
    - value_preds step
    + gamma * gae_lambda * done_masks (step + 1) * gae

/-- Update of `returns[step]` in the discounted-return branch with proper time
limits (`rollout_storage.py` lines 164-172), reading `returns[step + 1]`. -/
def retStepTl (gamma : ℚ)
    (rewards value_preds done_masks time_limit_masks : Nat → ℚ)
    (ret : ℚ) (step : Nat) : ℚ :=
  (ret * gamma * done_masks (step + 1) + rewards step)
      * time_limit_masks (step + 1)
    + (1 - time_limit_masks (step + 1)) * value_preds step

/-- Update of `returns[step]` in the plain discounted-return branch
(`rollout_storage.py` lines 187-191). -/
def retStep (gamma : ℚ) (rewards done_masks : Nat → ℚ)
    (ret : ℚ) (step : Nat) : ℚ :=
  ret * gamma * done_masks (step + 1) + rewards step

/-- Result of `RolloutStorage.compute_returns`: the two arrays the method
mutates (per environment). -/
structure ComputeReturnsResult where
  value_preds : Nat → ℚ
  returns : Nat → ℚ

/-- Embedding of `RolloutStorage.compute_returns` (`rollout_storage.py` lines
128-191) for one environment.  `rollout_steps` is `T = self.rewards.size(0)`;
the Python index `-1` on a `T+1`-length array is index `T`; the backward
`for step in reversed(range(T))` loop is a fold over `(List.range T).reverse`.
The four branches follow the nested `if use_proper_time_limits / if use_gae`
structure of the source. -/
def compute_returns (rollout_steps : Nat) (next_value : ℚ) (use_gae : Bool)
    (gamma gae_lambda : ℚ) (use_proper_time_limits : Bool)
    (rewards value_preds done_masks time_limit_masks returns : Nat → ℚ) :
    ComputeReturnsResult :=
  match use_proper_time_limits, use_gae with
  | true, true =>
    let vp := Function.update value_preds rollout_steps next_value
    let out := (List.range rollout_steps).reverse.foldl
      (accBody (gaeStepTl gamma gae_lambda rewards vp done_masks time_limit_masks)
        (fun gae step => gae + vp step))
      (0, returns)
    ⟨vp, out.2⟩
  | true, false =>
    let rets := Function.update returns rollout_steps next_value
    let out := (List.range rollout_steps).reverse.foldl
      (arrBody (retStepTl gamma rewards value_preds done_masks time_limit_masks))
      rets
    ⟨value_preds, out⟩
  | false, true =>
    let vp := Function.update value_preds rollout_steps next_value
    let out := (List.range rollout_steps).reverse.foldl
      (accBody (gaeStep gamma gae_lambda rewards vp done_masks)
        (fun gae step => gae + vp step))
      (0, returns)
    ⟨vp, out.2⟩
  | false, false =>
    let rets := Function.update returns rollout_steps next_value
    let out := (List.range rollout_steps).reverse.foldl
      (arrBody (retStep gamma rewards done_masks))
      rets
    ⟨value_preds, out⟩

theorem accSeed_peel (f : ℚ → Nat → ℚ) (g : ℚ) :
    ∀ n t : Nat, accSeed f (f g (t + n)) n t = accSeed f g (n + 1) t := by
  intro n
  induction n with
  | zero =>
    intro t
    simp [accSeed]
  | succ n ih =>
    intro t
    show f (accSeed f (f g (t + (n + 1))) n (t + 1)) t
        = f (accSeed f g (n + 1) (t + 1)) t
    rw [show t + (n + 1) = (t + 1) + n by omega, ih (t + 1)]

theorem range_reverse_succ (k : Nat) :
    (List.range (k + 1)).reverse = k :: (List.range k).reverse := by
  simp [List.range_succ]

theorem foldl_accBody (f o : ℚ → Nat → ℚ) :
    ∀ (k : Nat) (g : ℚ) (r : Nat → ℚ),
      (∀ t, k ≤ t →
        (((List.range k).reverse.foldl (accBody f o) (g, r)).2) t = r t) ∧
      (∀ t, t < k →
        (((List.range k).reverse.foldl (accBody f o) (g, r)).2) t
          = o (accSeed f g (k - t) t) t) := by
  intro k
  induction k with
  | zero =>
    intro g r
    exact ⟨fun t _ => rfl, fun t ht => absurd ht (Nat.not_lt_zero t)⟩
  | succ k ih =>
    intro g r
    rw [range_reverse_succ, List.foldl_cons]
    have hbody : accBody f o (g, r) k
        = (f g k, Function.update r k (o (f g k) k)) := rfl
    rw [hbody]
    obtain ⟨ih1, ih2⟩ := ih (f g k) (Function.update r k (o (f g k) k))
    constructor
    · intro t ht
      rw [ih1 t (by omega)]
      exact Function.update_noteq (by omega) _ _
    · intro t ht
      rcases Nat.lt_succ_iff_lt_or_eq.mp ht with h | h
      · rw [ih2 t h]
        have hpeel := accSeed_peel f g (k - t) t
        rw [show t + (k - t) = k by omega] at hpeel
        rw [hpeel, show k - t + 1 = k + 1 - t by omega]
      · subst h
        rw [ih1 t le_rfl, Function.update_same,
          show t + 1 - t = 1 by omega]
        show o (f g t) t = o (f (accSeed f g 0 (t + 1)) t) t
        rfl

theorem foldl_arrBody (f : ℚ → Nat → ℚ) :
    ∀ (k : Nat) (r : Nat → ℚ),
      (∀ t, k ≤ t →
        ((List.range k).reverse.foldl (arrBody f) r) t = r t) ∧
      (∀ t, t < k →
        ((List.range k).reverse.foldl (arrBody f) r) t
          = accSeed f (r k) (k - t) t) := by
  intro k
  induction k with
  | zero =>
    intro r
    exact ⟨fun t _ => rfl, fun t ht => absurd ht (Nat.not_lt_zero t)⟩
  | succ k ih =>
    intro r
    rw [range_reverse_succ, List.foldl_cons]
    have hbody : arrBody f r k = Function.update r k (f (r (k + 1)) k) := rfl
    rw [hbody]
    obtain ⟨ih1, ih2⟩ := ih (Function.update r k (f (r (k + 1)) k))
    constructor
    · intro t ht
      rw [ih1 t (by omega)]
      exact Function.update_noteq (by omega) _ _
    · intro t ht
      rcases Nat.lt_succ_iff_lt_or_eq.mp ht with h | h
      · rw [ih2 t h, Function.update_same]
        have hpeel := accSeed_peel f (r (k + 1)) (k - t) t
        rw [show t + (k - t) = k by omega] at hpeel
        rw [hpeel, show k - t + 1 = k + 1 - t by omega]
      · subst h
        rw [ih1 t le_rfl, Function.update_same,
          show t + 1 - t = 1 by omega]
        show f (r (t + 1)) t = f (accSeed f (r (t + 1)) 0 (t + 1)) t
        rfl

/-- Accumulated `gae` value at step `t` in the GAE branch with proper time
limits: backward recursion from the seed `0` above step `T - 1`. -/
def gaeSeq (gamma gae_lambda : ℚ) (rw vp dm tl : Nat → ℚ) (T t : Nat) : ℚ :=
  accSeed (gaeStepTl gamma gae_lambda rw vp dm tl) 0 (T - t) t

/-- Accumulated `gae` value at step `t` in the GAE branch without the
time-limit correction. -/
def gaeSeqNoTl (gamma gae_lambda : ℚ) (rw vp dm : Nat → ℚ) (T t : Nat) : ℚ :=
  accSeed (gaeStep gamma gae_lambda rw vp dm) 0 (T - t) t

/-- Value of `returns[t]` in the discounted-return branch with proper time
limits: backward recursion from the bootstrap seed at step `T`. -/
def retSeqTl (gamma : ℚ) (rw vp dm tl : Nat → ℚ) (nv : ℚ) (T t : Nat) : ℚ :=
  accSeed (retStepTl gamma rw vp dm tl) nv (T - t) t

/-- Value of `returns[t]` in the plain discounted-return branch. -/
def retSeq (gamma : ℚ) (rw dm : Nat → ℚ) (nv : ℚ) (T t : Nat) : ℚ :=
  accSeed (retStep gamma rw dm) nv (T - t) t

theorem gaeSeq_boundary (gamma gae_lambda : ℚ) (rw vp dm tl : Nat → ℚ)
    (T : Nat) : gaeSeq gamma gae_lambda rw vp dm tl T T = 0 := by
  unfold gaeSeq
  rw [Nat.sub_self]
  rfl

theorem gaeSeq_step (gamma gae_lambda : ℚ) (rw vp dm tl : Nat → ℚ)
    (T t : Nat) (ht : t < T) :
    gaeSeq gamma gae_lambda rw vp dm tl T t
      = gaeStepTl gamma gae_lambda rw vp dm tl
          (gaeSeq gamma gae_lambda rw vp dm tl T (t + 1)) t := by
  unfold gaeSeq
  rw [show T - t = (T - (t + 1)) + 1 by omega]
  rfl

theorem retSeqTl_boundary (gamma : ℚ) (rw vp dm tl : Nat → ℚ) (nv : ℚ)
    (T : Nat) : retSeqTl gamma rw vp dm tl nv T T = nv := by
  unfold retSeqTl
  rw [Nat.sub_self]
  rfl

theorem retSeqTl_step (gamma : ℚ) (rw vp dm tl : Nat → ℚ) (nv : ℚ)
    (T t : Nat) (ht : t < T) :
    retSeqTl gamma rw vp dm tl nv T t
      = retStepTl gamma rw vp dm tl (retSeqTl gamma rw vp dm tl nv T (t + 1)) t := by
  unfold retSeqTl
  rw [show T - t = (T - (t + 1)) + 1 by omega]
  rfl

theorem crGaeTl_value_preds (T : Nat) (nv gamma lam : ℚ)
    (rw vp dm tl r0 : Nat → ℚ) :
    (compute_returns T nv true gamma lam true rw vp dm tl r0).value_preds
      = Function.update vp T nv := rfl

theorem crGaeTl_returns_lt (T : Nat) (nv gamma lam : ℚ)
    (rw vp dm tl r0 : Nat → ℚ) (t : Nat) (ht : t < T) :
    (compute_returns T nv true gamma lam true rw vp dm tl r0).returns t
      = gaeSeq gamma lam rw (Function.update vp T nv) dm tl T t
        + Function.update vp T nv t :=
  (foldl_accBody (gaeStepTl gamma lam rw (Function.update vp T nv) dm tl)
    (fun gae step => gae + Function.update vp T nv step) T 0 r0).2 t ht

theorem crGaeTl_returns_ge (T : Nat) (nv gamma lam : ℚ)
    (rw vp dm tl r0 : Nat → ℚ) (t : Nat) (ht : T ≤ t) :
    (compute_returns T nv true gamma lam true rw vp dm tl r0).returns t
      = r0 t :=
  (foldl_accBody (gaeStepTl gamma lam rw (Function.update vp T nv) dm tl)
    (fun gae step => gae + Function.update vp T nv step) T 0 r0).1 t ht

theorem crGae_value_preds (T : Nat) (nv gamma lam : ℚ)
    (rw vp dm tl r0 : Nat → ℚ) :
    (compute_returns T nv true gamma lam false rw vp dm tl r0).value_preds
      = Function.update vp T nv := rfl

theorem crGae_returns_lt (T : Nat) (nv gamma lam : ℚ)
    (rw vp dm tl r0 : Nat → ℚ) (t : Nat) (ht : t < T) :
    (compute_returns T nv true gamma lam false rw vp dm tl r0).returns t
      = gaeSeqNoTl gamma lam rw (Function.update vp T nv) dm T t
        + Function.update vp T nv t :=
  (foldl_accBody (gaeStep gamma lam rw (Function.update vp T nv) dm)
    (fun gae step => gae + Function.update vp T nv step) T 0 r0).2 t ht

theorem crGae_returns_ge (T : Nat) (nv gamma lam : ℚ)
    (rw vp dm tl r0 : Nat → ℚ) (t : Nat) (ht : T ≤ t) :
    (compute_returns T nv true gamma lam false rw vp dm tl r0).returns t
      = r0 t :=
  (foldl_accBody (gaeStep gamma lam rw (Function.update vp T nv) dm)
    (fun gae step => gae + Function.update vp T nv step) T 0 r0).1 t ht

theorem crRetTl_returns_ge (T : Nat) (nv gamma lam : ℚ)
    (rw vp dm tl r0 : Nat → ℚ) (t : Nat) (ht : T ≤ t) :
    (compute_returns T nv false gamma lam true rw vp dm tl r0).returns t
      = Function.update r0 T nv t :=
  (foldl_arrBody (retStepTl gamma rw vp dm tl) T (Function.update r0 T nv)).1 t ht

theorem crRetTl_returns_lt (T : Nat) (nv gamma lam : ℚ)
    (rw vp dm tl r0 : Nat → ℚ) (t : Nat) (ht : t < T) :
    (compute_returns T nv false gamma lam true rw vp dm tl r0).returns t
      = retSeqTl gamma rw vp dm tl nv T t := by
  have h := (foldl_arrBody (retStepTl gamma rw vp dm tl) T
    (Function.update r0 T nv)).2 t ht
  rw [Function.update_same] at h
  exact h

theorem crRetTl_returns_all (T : Nat) (nv gamma lam : ℚ)
    (rw vp dm tl r0 : Nat → ℚ) (t : Nat) (ht : t ≤ T) :
    (compute_returns T nv false gamma lam true rw vp dm tl r0).returns t
      = retSeqTl gamma rw vp dm tl nv T t := by
  rcases Nat.lt_or_ge t T with h | h
  · exact crRetTl_returns_lt T nv gamma lam rw vp dm tl r0 t h
  · have hT : t = T := le_antisymm ht h
    subst hT
    rw [crRetTl_returns_ge t nv gamma lam rw vp dm tl r0 t le_rfl,
      Function.update_same, retSeqTl_boundary]

theorem crRet_returns_ge (T : Nat) (nv gamma lam : ℚ)
    (rw vp dm tl r0 : Nat → ℚ) (t : Nat) (ht : T ≤ t) :
    (compute_returns T nv false gamma lam false rw vp dm tl r0).returns t
      = Function.update r0 T nv t :=
  (foldl_arrBody (retStep gamma rw dm) T (Function.update r0 T nv)).1 t ht

theorem crRet_returns_lt (T : Nat) (nv gamma lam : ℚ)
    (rw vp dm tl r0 : Nat → ℚ) (t : Nat) (ht : t < T) :
    (compute_returns T nv false gamma lam false rw vp dm tl r0).returns t
      = retSeq gamma rw dm nv T t := by
  have h := (foldl_arrBody (retStep gamma rw dm) T (Function.update r0 T nv)).2 t ht
  rw [Function.update_same] at h
  exact h

/-- C1: with `use_gae = true` and `use_proper_time_limits = true`,
`compute_returns` sets `value_preds[T]` to the bootstrap value (leaving
`value_preds[t]` for `t < T` unchanged), and there is an accumulator sequence
`gae` with `gae T = 0` such that for every `t` from `T - 1` down to `0` (and,
since all tensor operations are elementwise, for every environment)
`gae t = (reward[t] + gamma * value_preds[t+1] * done_masks[t+1]
- value_preds[t] + gamma * gae_lambda * done_masks[t+1] * gae (t+1))
* time_limit_masks[t+1]` — i.e. `delta` plus the discounted carried `gae`,
masked by `time_limit_masks[t+1]` — and `returns[t] = gae t + value_preds[t]`. -/
theorem c1_compute_returns_gae_proper_time_limits
    (T : Nat) (next_value gamma gae_lambda : ℚ)
    (rewards value_preds done_masks time_limit_masks returns0 : Nat → ℚ)
    (out : ComputeReturnsResult)
    (hout : out = compute_returns T next_value true gamma gae_lambda true
      rewards value_preds done_masks time_limit_masks returns0) :
    out.value_preds T = next_value ∧
    (∀ t, t < T → out.value_preds t = value_preds t) ∧
    ∃ gae : Nat → ℚ,
      gae T = 0 ∧
      (∀ t, t < T →
        gae t = (rewards t
            + gamma * out.value_preds (t + 1) * done_masks (t + 1)
            - out.value_preds t
            + gamma * gae_lambda * done_masks (t + 1) * gae (t + 1))
          * time_limit_masks (t + 1)) ∧
      (∀ t, t < T → out.returns t = gae t + out.value_preds t) := by
  subst hout
  refine ⟨?_, ?_, ?_⟩
  · rw [crGaeTl_value_preds]
    exact Function.update_same _ _ _
  · intro t ht
    rw [crGaeTl_value_preds]
    exact Function.update_noteq (Nat.ne_of_lt ht) _ _
  · refine ⟨gaeSeq gamma gae_lambda rewards
      (Function.update value_preds T next_value) done_masks time_limit_masks T,
      ?_, ?_, ?_⟩
    · exact gaeSeq_boundary _ _ _ _ _ _ _
    · intro t ht
      rw [crGaeTl_value_preds,
        gaeSeq_step gamma gae_lambda rewards
          (Function.update value_preds T next_value) done_masks
          time_limit_masks T t ht]
      rfl
    · intro t ht
      rw [crGaeTl_value_preds,
        crGaeTl_returns_lt T next_value gamma gae_lambda rewards value_preds
          done_masks time_limit_masks returns0 t ht]

/-- Witness for C1 at `T = 1`, bootstrap `2`, `gamma = gae_lambda = 1`,
reward `3`, value prediction `5`, both masks `1`: the bootstrap lands in
`value_preds[1]` and `returns[0] = delta + value_preds[0]
= (3 + 2 - 5) + 5 = 5`. -/
theorem c1_witness :
    (compute_returns 1 (2 : ℚ) true 1 1 true (fun _ => 3) (fun _ => 5)
      (fun _ => 1) (fun _ => 1) (fun _ => 0)).value_preds 1 = 2 ∧
    (compute_returns 1 (2 : ℚ) true 1 1 true (fun _ => 3) (fun _ => 5)
      (fun _ => 1) (fun _ => 1) (fun _ => 0)).returns 0 = 5 := by
  obtain ⟨h1, h2, gae, hb, hrec, hret⟩ :=
    c1_compute_returns_gae_proper_time_limits 1 2 1 1 (fun _ => 3)
      (fun _ => 5) (fun _ => 1) (fun _ => 1) (fun _ => 0) _ rfl
  refine ⟨h1, ?_⟩
  rw [hret 0 Nat.zero_lt_one, hrec 0 Nat.zero_lt_one,
    show (0 : Nat) + 1 = 1 from rfl, hb, h1, h2 0 Nat.zero_lt_one]
  norm_num

/-- C2: with `use_gae = false` and `use_proper_time_limits = true`,
`compute_returns` sets `returns[T]` to the bootstrap value and, for every `t`
from `T - 1` down to `0` (elementwise over environments),
`returns[t] = (returns[t+1] * gamma * done_masks[t+1] + reward[t])
* time_limit_masks[t+1] + (1 - time_limit_masks[t+1]) * value_preds[t]`; in
particular on a time-limit truncation at `t + 1` (mask `0`) the return falls
back to the stored value estimate `value_preds[t]`. -/
theorem c2_compute_returns_discounted_proper_time_limits
    (T : Nat) (next_value gamma gae_lambda : ℚ)
    (rewards value_preds done_masks time_limit_masks returns0 : Nat → ℚ)
    (out : ComputeReturnsResult)
    (hout : out = compute_returns T next_value false gamma gae_lambda true
      rewards value_preds done_masks time_limit_masks returns0) :
    out.returns T = next_value ∧
    (∀ t, t < T →
      out.returns t = (out.returns (t + 1) * gamma * done_masks (t + 1)
          + rewards t) * time_limit_masks (t + 1)
        + (1 - time_limit_masks (t + 1)) * value_preds t) ∧
    (∀ t, t < T → time_limit_masks (t + 1) = 0 →
      out.returns t = value_preds t) := by
  subst hout
  have hstep : ∀ t, t < T →
      (compute_returns T next_value false gamma gae_lambda true rewards
        value_preds done_masks time_limit_masks returns0).returns t
      = ((compute_returns T next_value false gamma gae_lambda true rewards
          value_preds done_masks time_limit_masks returns0).returns (t + 1)
            * gamma * done_masks (t + 1) + rewards t) * time_limit_masks (t + 1)
        + (1 - time_limit_masks (t + 1)) * value_preds t := by
    intro t ht
    rw [crRetTl_returns_all T next_value gamma gae_lambda rewards value_preds
        done_masks time_limit_masks returns0 t (le_of_lt ht),
      crRetTl_returns_all T next_value gamma gae_lambda rewards value_preds
        done_masks time_limit_masks returns0 (t + 1) ht,
      retSeqTl_step gamma rewards value_preds done_masks time_limit_masks
        next_value T t ht]
    rfl
  refine ⟨?_, hstep, ?_⟩
  · rw [crRetTl_returns_ge T next_value gamma gae_lambda rewards value_preds
      done_masks time_limit_masks returns0 T le_rfl, Function.update_same]
  · intro t ht htl
    rw [hstep t ht, htl]
    ring

/-- Witness for C2 at `T = 1`, bootstrap `2`, `gamma = 1`, reward `3`, value
prediction `5`, with a time-limit truncation (`time_limit_masks = 0`): the
return at `0` falls back to the value estimate `5`. -/
theorem c2_witness :
    (compute_returns 1 (2 : ℚ) false 1 1 true (fun _ => 3) (fun _ => 5)
      (fun _ => 1) (fun _ => 0) (fun _ => 0)).returns 1 = 2 ∧
    (compute_returns 1 (2 : ℚ) false 1 1 true (fun _ => 3) (fun _ => 5)
      (fun _ => 1) (fun _ => 0) (fun _ => 0)).returns 0 = 5 :=
  ⟨(c2_compute_returns_discounted_proper_time_limits 1 2 1 1 (fun _ => 3)
      (fun _ => 5) (fun _ => 1) (fun _ => 0) (fun _ => 0) _ rfl).1,
    (c2_compute_returns_discounted_proper_time_limits 1 2 1 1 (fun _ => 3)
      (fun _ => 5) (fun _ => 1) (fun _ => 0) (fun _ => 0) _ rfl).2.2 0
      Nat.zero_lt_one rfl⟩

/-- Counterexample to C7: in the GAE branches `compute_returns` never writes
`returns[T]` — only `value_preds[T]` receives the bootstrap.  With
`use_gae = true`, `use_proper_time_limits = true`, `T = 1` and bootstrap `3`,
the final `returns[1]` is whatever the buffer held before the call (`7` in the
first run, `0` in the second), not a value written by the call. -/
theorem c7_counterexample :
    (compute_returns 1 (3 : ℚ) true 0 0 true (fun _ => 0) (fun _ => 0)
      (fun _ => 0) (fun _ => 0) (fun _ => 7)).returns 1 = 7 ∧
    (compute_returns 1 (3 : ℚ) true 0 0 true (fun _ => 0) (fun _ => 0)
      (fun _ => 0) (fun _ => 0) (fun _ => 0)).returns 1 = 0 ∧
    (7 : ℚ) ≠ 3 :=
  ⟨crGaeTl_returns_ge 1 3 0 0 (fun _ => 0) (fun _ => 0) (fun _ => 0)
      (fun _ => 0) (fun _ => 7) 1 le_rfl,
    crGaeTl_returns_ge 1 3 0 0 (fun _ => 0) (fun _ => 0) (fun _ => 0)
      (fun _ => 0) (fun _ => 0) 1 le_rfl,
    by norm_num⟩

/-- C7 (amended): `compute_returns` fills `returns[0 .. T-1]` in place for
every combination of the toggles — the slots below `T` do not depend on the
buffer's prior `returns` content — but slot `T` is written (with the bootstrap
value) only in the `use_gae = false` variants; in the `use_gae = true`
variants `returns[T]` keeps its prior content (`value_preds[T]` receives the
bootstrap instead). -/
theorem c7_amended_compute_returns_written_slots
    (T : Nat) (next_value gamma gae_lambda : ℚ) (use_gae use_tl : Bool)
    (rewards value_preds done_masks time_limit_masks r0 r1 : Nat → ℚ)
    (out0 out1 : ComputeReturnsResult)
    (h0 : out0 = compute_returns T next_value use_gae gamma gae_lambda use_tl
      rewards value_preds done_masks time_limit_masks r0)
    (h1 : out1 = compute_returns T next_value use_gae gamma gae_lambda use_tl
      rewards value_preds done_masks time_limit_masks r1) :
    (out0.returns T = cond use_gae (r0 T) next_value) ∧
    (∀ t, t < T → out0.returns t = out1.returns t) := by
  subst h0 h1
  cases use_gae <;> cases use_tl
  · refine ⟨?_, ?_⟩
    · rw [crRet_returns_ge T next_value gamma gae_lambda rewards value_preds
        done_masks time_limit_masks r0 T le_rfl, Function.update_same]
      rfl
    · intro t ht
      rw [crRet_returns_lt T next_value gamma gae_lambda rewards value_preds
          done_masks time_limit_masks r0 t ht,
        crRet_returns_lt T next_value gamma gae_lambda rewards value_preds
          done_masks time_limit_masks r1 t ht]
  · refine ⟨?_, ?_⟩
    · rw [crRetTl_returns_ge T next_value gamma gae_lambda rewards value_preds
        done_masks time_limit_masks r0 T le_rfl, Function.update_same]
      rfl
    · intro t ht
      rw [crRetTl_returns_lt T next_value gamma gae_lambda rewards value_preds
          done_masks time_limit_masks r0 t ht,
        crRetTl_returns_lt T next_value gamma gae_lambda rewards value_preds
          done_masks time_limit_masks r1 t ht]
  · refine ⟨?_, ?_⟩
    · rw [crGae_returns_ge T next_value gamma gae_lambda rewards value_preds
        done_masks time_limit_masks r0 T le_rfl]
      rfl
    · intro t ht
      rw [crGae_returns_lt T next_value gamma gae_lambda rewards value_preds
          done_masks time_limit_masks r0 t ht,
        crGae_returns_lt T next_value gamma gae_lambda rewards value_preds
          done_masks time_limit_masks r1 t ht]
  · refine ⟨?_, ?_⟩
    · rw [crGaeTl_returns_ge T next_value gamma gae_lambda rewards value_preds
        done_masks time_limit_masks r0 T le_rfl]
      rfl
    · intro t ht
      rw [crGaeTl_returns_lt T next_value gamma gae_lambda rewards value_preds
          done_masks time_limit_masks r0 t ht,
        crGaeTl_returns_lt T next_value gamma gae_lambda rewards value_preds
          done_masks time_limit_masks r1 t ht]

/-- Witness for the amended C7 at `T = 1` in the `use_gae = false`,
`use_proper_time_limits = false` variant: slot `1` receives the bootstrap `3`
(despite the buffer previously holding `7` there), and slot `0` is independent
of the prior `returns` content. -/
theorem c7_amended_witness :
    (compute_returns 1 (3 : ℚ) false 0 0 false (fun _ => 0) (fun _ => 0)
      (fun _ => 0) (fun _ => 0) (fun _ => 7)).returns 1 = 3 ∧
    (∀ t, t < 1 →
      (compute_returns 1 (3 : ℚ) false 0 0 false (fun _ => 0) (fun _ => 0)
        (fun _ => 0) (fun _ => 0) (fun _ => 7)).returns t
      = (compute_returns 1 (3 : ℚ) false 0 0 false (fun _ => 0) (fun _ => 0)
        (fun _ => 0) (fun _ => 0) (fun _ => 0)).returns t) :=
  c7_amended_compute_returns_written_slots 1 3 0 0 false false (fun _ => 0)
    (fun _ => 0) (fun _ => 0) (fun _ => 0) (fun _ => 7) (fun _ => 0) _ _ rfl rfl

/-- Model of the index sampling of `RolloutStorage.feed_forward_generator`
(`rollout_storage.py` lines 225-229): `torch.utils.data.BatchSampler(
SubsetRandomSampler(range(batch_size)), minibatch_size, drop_last=True)`
consumes a shuffled order `perm` of the flattened transition indices (the
randomness is abstracted as an arbitrary permutation, universally quantified
in the theorems) and yields its consecutive chunks of size `b`, the final
partial chunk being dropped (`drop_last=True`): chunk `i` is
`perm[i*b : i*b + b]` for `i < perm.length / b`. -/
def batch_sampler_chunks (b : Nat) (perm : List Nat) : List (List Nat) :=
  (List.range (perm.length / b)).map (fun i => (perm.drop (i * b)).take b)

/-- Minibatch index lists produced by one full consumption of
`feed_forward_generator` with an explicit `minibatch_size`, given the shuffled
index order `perm` over the `T * N` flattened transitions. -/
def feed_forward_generator_batches (T N minibatch_size : Nat)
    (perm : List Nat) : List (List Nat) :=
  batch_sampler_chunks minibatch_size perm

theorem batch_sampler_chunks_length (b : Nat) (xs : List Nat) :
    (batch_sampler_chunks b xs).length = xs.length / b := by
  simp [batch_sampler_chunks]

theorem batch_sampler_chunks_sizes (b : Nat) (xs : List Nat) :
    ∀ c ∈ batch_sampler_chunks b xs, c.length = b := by
  intro c hc
  obtain ⟨i, hi, rfl⟩ := List.mem_map.mp hc
  have hi' : i < xs.length / b := List.mem_range.mp hi
  have hib : i * b + b ≤ xs.length := by
    have h1 : (i + 1) * b ≤ (xs.length / b) * b :=
      Nat.mul_le_mul_right b hi'
    have h2 : (xs.length / b) * b ≤ xs.length := Nat.div_mul_le_self _ _
    calc i * b + b = (i + 1) * b := by ring
    _ ≤ (xs.length / b) * b := h1
    _ ≤ xs.length := h2
  have hd : b ≤ (xs.drop (i * b)).length := by
    rw [List.length_drop]
    omega
  exact List.length_take_of_le hd

theorem batch_sampler_chunks_flatten_aux (b : Nat) (xs : List Nat) :
    ∀ m : Nat, m * b ≤ xs.length →
      ((List.range m).map (fun i => (xs.drop (i * b)).take b)).flatten
        = xs.take (m * b) := by
  intro m
  induction m with
  | zero => intro _; simp
  | succ m ih =>
    intro hm
    have hm' : m * b ≤ xs.length := by
      have : m * b ≤ (m + 1) * b := Nat.mul_le_mul_right b (Nat.le_succ m)
      omega
    rw [List.range_succ, List.map_append, List.flatten_append, ih hm']
    simp only [List.map_cons, List.map_nil, List.flatten_cons,
      List.flatten_nil, List.append_nil]
    rw [show (m + 1) * b = m * b + b by ring, List.take_add]

theorem batch_sampler_chunks_flatten (b : Nat) (xs : List Nat) :
    (batch_sampler_chunks b xs).flatten = xs.take ((xs.length / b) * b) :=
  batch_sampler_chunks_flatten_aux b xs (xs.length / b)
    (Nat.div_mul_le_self _ _)

/-- C3: for a buffer with `T` steps and `N` environments and any minibatch
size `b` with `1 ≤ b ≤ T * N`, one full consumption of
`feed_forward_generator` yields exactly `(T * N) / b` minibatches, each of
exactly `b` flattened transition indices, with no index repeated across the
minibatches of one call (the final partial minibatch being dropped); `perm`
ranges over the possible outputs of the subset random sampler, i.e. the
permutations of `range (T * N)`. -/
theorem c3_feed_forward_generator_minibatch_partition
    (T N b : Nat) (perm : List Nat) (hb : 1 ≤ b) (hbB : b ≤ T * N)
    (hperm : perm.Perm (List.range (T * N))) :
    (feed_forward_generator_batches T N b perm).length = T * N / b ∧
    (∀ mb ∈ feed_forward_generator_batches T N b perm, mb.length = b) ∧
    (feed_forward_generator_batches T N b perm).flatten.Nodup := by
  have hlen : perm.length = T * N := by
    rw [hperm.length_eq, List.length_range]
  refine ⟨?_, batch_sampler_chunks_sizes b perm, ?_⟩
  · rw [feed_forward_generator_batches, batch_sampler_chunks_length, hlen]
  · have hnodup : perm.Nodup := hperm.symm.nodup (List.nodup_range _)
    rw [feed_forward_generator_batches, batch_sampler_chunks_flatten]
    exact hnodup.sublist (List.take_sublist _ _)

/-- Witness for C3 with `T = N = 2`, `b = 3` and the shuffle `[2,0,3,1]`:
one minibatch of three indices is yielded and the trailing partial minibatch
is dropped. -/
theorem c3_witness :
    (feed_forward_generator_batches 2 2 3 [2, 0, 3, 1]).length = 2 * 2 / 3 ∧
    (∀ mb ∈ feed_forward_generator_batches 2 2 3 [2, 0, 3, 1],
      mb.length = 3) ∧
    (feed_forward_generator_batches 2 2 3 [2, 0, 3, 1]).flatten.Nodup :=
  c3_feed_forward_generator_minibatch_partition 2 2 3 [2, 0, 3, 1]
    (by norm_num) (by norm_num) (by decide)

/-- Row `i` of `x[:-1].view(T * N, feature)` for a time-major array `x` of
shape `(T+1, N, feature)`: flattening the leading `T × N` grid maps the flat
transition index `i` to time `i / N` and environment `i % N`.  The trailing
feature axis is elided (each row is modelled as one scalar), since indexing
treats rows atomically. -/
def flat_row (N : Nat) (x : Nat → Nat → ℚ) (i : Nat) : ℚ := x (i / N) (i % N)

/-- Recurrent-state entries of one minibatch yielded by
`feed_forward_generator` (`rollout_storage.py` lines 231-233): the source
indexes `self.recurrent_hidden_states[:-1].view(-1, size)` at the sampled
flat indices. -/
def ff_recurrent_batch (N : Nat) (recurrent_hidden_states : Nat → Nat → ℚ)
    (indices : List Nat) : List ℚ :=
  indices.map (flat_row N recurrent_hidden_states)

/-- Counterexample to C5: with `N = 1` environment and recurrent states
`rhs t e = t` (so step 0 stores `0` and step 1 stores `1`), the minibatch
containing the flat index `1` yields recurrent entry `1` — the step-1 state
of that environment, not the step-0 state `0` that the claim asserts. -/
theorem c5_counterexample :
    ff_recurrent_batch 1 (fun t _ => (t : ℚ)) [1] = [1] ∧
    (fun (t : Nat) (_ : Nat) => (t : ℚ)) 0 (1 % 1) = 0 ∧
    ([1] : List ℚ) ≠ [0] := by
  refine ⟨?_, by norm_num, by simp⟩
  simp [ff_recurrent_batch, flat_row]

/-- C5 (amended): in every minibatch yielded by `feed_forward_generator`,
the recurrent-state entry for a sampled flat index `i` is the
**per-transition** state `recurrent_hidden_states[i / N][i % N]` — the state
at step `i / N` (which is `< T`, i.e. drawn from the `[:-1]` slice) of
environment `i % N` — not the step-0 state of that environment. -/
theorem c5_amended_feed_forward_recurrent_per_transition
    (T N b : Nat) (perm : List Nat) (rhs : Nat → Nat → ℚ)
    (hN : 0 < N) (hperm : perm.Perm (List.range (T * N))) :
    ∀ mb ∈ feed_forward_generator_batches T N b perm,
      ff_recurrent_batch N rhs mb = mb.map (fun i => rhs (i / N) (i % N)) ∧
      ∀ i ∈ mb, i / N < T := by
  intro mb hmb
  refine ⟨rfl, ?_⟩
  intro i hi
  obtain ⟨i₀, _, rfl⟩ := List.mem_map.mp hmb
  have hip : i ∈ perm :=
    List.mem_of_mem_drop (List.mem_of_mem_take hi)
  have hiB : i < N * T := by
    rw [Nat.mul_comm]
    exact List.mem_range.mp (hperm.mem_iff.mp hip)
  exact Nat.div_lt_of_lt_mul hiB

/-- Witness for the amended C5 with `T = 2`, `N = 1`, `b = 1` and the
shuffle `[1, 0]`: the first yielded minibatch is `[1]`, its recurrent entry
is the per-transition state at step `1 / 1 = 0 + 1 = 1 < 2`. -/
theorem c5_amended_witness :
    ff_recurrent_batch 1 (fun t _ => (t : ℚ)) [1]
      = [1].map (fun i => (fun (t _ : Nat) => (t : ℚ)) (i / 1) (i % 1)) ∧
    (1 : Nat) / 1 < 2 := by
  obtain ⟨h1, h2⟩ :=
    c5_amended_feed_forward_recurrent_per_transition 2 1 1 [1, 0]
      (fun t _ => (t : ℚ)) (by norm_num) (by decide) [1] (by decide)
  exact ⟨h1, h2 1 (by decide)⟩

/-- Python `range(0, stop, step)` for a positive `step`: the multiples of
`step` below `stop`, of which there are `ceil(stop / step)`. -/
def range_step (stop step : Nat) : List Nat :=
  (List.range ((stop + step - 1) / step)).map (fun i => i * step)

/-- Message of the assert at `rollout_storage.py` lines 260-264. -/
def ASSERT_MSG : String :=
  "PPO requires the number of processes to be greater than or equal to the number of PPO mini batches."

/-- Message of a Python `IndexError` raised by an out-of-bounds tensor index. -/
def INDEX_MSG : String := "IndexError"

/-- Sequential effectful map in the `Except` monad, stopping at the first
error: the order in which the generator loops of `recurrent_generator` touch
their inputs. -/
def mapE {α β : Type} (f : α → Except String β) : List α → Except String (List β)
  | [] => .ok []
  | x :: xs =>
    match f x with
    | .error e => .error e
    | .ok y =>
      match mapE f xs with
      | .error e => .error e
      | .ok ys => .ok (y :: ys)

/-- Embedding of the control flow of `RolloutStorage.recurrent_generator`
(`rollout_storage.py` lines 248-321) at the level of environment indices: the
assert `num_processes >= num_minibatches`, then
`num_envs_per_batch = num_processes // num_minibatches`, then one minibatch
per `start_ind in range(0, num_processes, num_envs_per_batch)`, each
collecting `perm[start_ind + offset]` for
`offset in range(num_envs_per_batch)`; an out-of-range access into the
permutation raises an index error. -/
def recurrent_generator_run (num_processes num_minibatches : Nat)
    (perm : List Nat) : Except String (List (List Nat)) :=
  if num_processes < num_minibatches then
    .error ASSERT_MSG
  else
    let num_envs_per_batch := num_processes / num_minibatches
    mapE (fun start_ind =>
        mapE (fun offset =>
            match perm[start_ind + offset]? with
            | some ind => .ok ind
            | none => .error INDEX_MSG)
          (List.range num_envs_per_batch))
      (range_step num_processes num_envs_per_batch)

theorem mapE_error_mem {α β : Type} (f : α → Except String β) :
    ∀ (l : List α) (e : String), mapE f l = .error e → ∃ x ∈ l, f x = .error e := by
  intro l
  induction l with
  | nil =>
    intro e h
    simp [mapE] at h
  | cons x xs ih =>
    intro e h
    rw [mapE] at h
    cases hfx : f x with
    | error e' =>
      rw [hfx] at h
      cases h
      exact ⟨x, List.mem_cons_self x xs, hfx⟩
    | ok y =>
      rw [hfx] at h
      cases hrec : mapE f xs with
      | error e' =>
        rw [hrec] at h
        cases h
        obtain ⟨z, hz, hfz⟩ := ih e hrec
        exact ⟨z, List.mem_cons_of_mem x hz, hfz⟩
      | ok ys =>
        rw [hrec] at h
        cases h

/-- Counterexample to C4: `num_processes = 3` and `num_minibatches = 2`
violate the divisibility condition, yet `recurrent_generator` raises no
configuration error at all — the assert `3 >= 2` passes,
`num_envs_per_batch = 3 // 2 = 1`, and the run succeeds, yielding three
single-environment minibatches (three minibatches, not two). -/
theorem c4_counterexample :
    ¬ (2 ∣ 3) ∧
    recurrent_generator_run 3 2 [0, 1, 2] = .ok [[0], [1], [2]] :=
  ⟨by decide, rfl⟩

/-- C4 (amended): `recurrent_generator` checks only
`num_processes >= num_minibatches` (the assert at lines 260-264);
divisibility of `N` by `num_minibatches` is not checked.  The run raises the
configuration (assertion) error exactly when `N < num_minibatches`; when
`N >= num_minibatches` it never raises that error — it either yields all its
minibatches, or hits an index error mid-iteration when the derived
`num_envs_per_batch` does not divide `N`. -/
theorem c4_amended_recurrent_generator_precondition
    (num_processes num_minibatches : Nat) (perm : List Nat)
    (hnm : 1 ≤ num_minibatches) :
    recurrent_generator_run num_processes num_minibatches perm
        = Except.error ASSERT_MSG
      ↔ num_processes < num_minibatches := by
  unfold recurrent_generator_run
  by_cases h : num_processes < num_minibatches
  · rw [if_pos h]
    simp [h]
  · rw [if_neg h]
    simp only [h, iff_false]
    intro hcontra
    obtain ⟨start_ind, -, hrow⟩ := mapE_error_mem _ _ _ hcontra
    obtain ⟨offset, -, hcell⟩ := mapE_error_mem _ _ _ hrow
    cases hget : perm[start_ind + offset]? with
    | some ind =>
      rw [hget] at hcell
      cases hcell
    | none =>
      rw [hget] at hcell
      exact absurd (Except.error.inj hcell) (by decide)

/-- Witness for the amended C4 at `num_processes = 1 < 2 = num_minibatches`:
the run raises exactly the configuration error. -/
theorem c4_amended_witness :
    recurrent_generator_run 1 2 [0] = Except.error ASSERT_MSG ↔ 1 < 2 :=
  c4_amended_recurrent_generator_precondition 1 2 [0] (by norm_num)

/-- Derived minibatch size when `feed_forward_generator` is called with a
minibatch count instead of an explicit size (`rollout_storage.py` line 222):
`minibatch_size = batch_size // num_minibatches`. -/
def ff_derived_minibatch_size (batch_size num_minibatches : Nat) : Nat :=
  batch_size / num_minibatches

/-- Number of minibatches one epoch of `feed_forward_generator` actually
yields when called with a minibatch count: the number of full chunks of the
derived size among the `batch_size` shuffled indices. -/
def ff_num_minibatches_yielded (batch_size num_minibatches : Nat) : Nat :=
  batch_size / ff_derived_minibatch_size batch_size num_minibatches

/-- Loss aggregation of `PPO.update` (`ppo.py` lines 111-191): each scalar
loss (`value_loss`, `action_loss`, `dist_entropy`) is accumulated over every
minibatch update actually performed — `num_epochs` epochs of
`ff_num_minibatches_yielded` minibatches each, the per-update values
abstracted as an arbitrary function `losses` of the update ordinal since they
come from the external policy and change as parameters are updated — and the
sum is divided by `num_updates = num_epochs * num_minibatches` (line 185). -/
def ppo_update_average (num_epochs batch_size num_minibatches : Nat)
    (losses : Nat → ℚ) : ℚ :=
  (((List.range
      (num_epochs * ff_num_minibatches_yielded batch_size num_minibatches)).map
    losses).sum)
    / ((num_epochs * num_minibatches : Nat) : ℚ)

/-- Counterexample to C6: with `T * N = 10` flattened transitions and
`num_minibatches = 4`, the derived minibatch size is `10 // 4 = 2`, so one
epoch of `feed_forward_generator` yields `10 / 2 = 5` minibatches, yet
`update` divides by `num_epochs * num_minibatches = 1 * 4`.  With every
per-update loss equal to `1`, `update` returns `5 / 4`, not the average `1`
over the `5` minibatch updates actually performed. -/
theorem c6_counterexample :
    ff_num_minibatches_yielded 10 4 = 5 ∧
    ppo_update_average 1 10 4 (fun _ => 1) = 5 / 4 ∧
    ¬ ppo_update_average 1 10 4 (fun _ => 1)
        = (((List.range (1 * ff_num_minibatches_yielded 10 4)).map
            (fun _ => (1 : ℚ))).sum)
          / ((1 * ff_num_minibatches_yielded 10 4 : Nat) : ℚ) := by
  have h5 : ff_num_minibatches_yielded 10 4 = 5 := rfl
  have hsum : ((List.range 5).map (fun _ => (1 : ℚ))).sum = 5 := by
    norm_num [List.range_succ]
  refine ⟨h5, ?_, ?_⟩
  · rw [ppo_update_average, h5, show 1 * 5 = 5 from rfl, hsum]
    norm_num
  · rw [ppo_update_average, h5, show 1 * 5 = 5 from rfl, hsum]
    norm_num

/-- C6 (amended): `update` returns each loss sum divided by the nominal
count `num_epochs * num_minibatches`; this equals the sum divided by the
number of minibatch updates actually performed whenever `num_minibatches`
divides the number `T * N` of flattened transitions, because then every epoch
of `feed_forward_generator` yields exactly `num_minibatches` minibatches
(third conjunct: the chunk count over any shuffled order of the
`batch_size` indices). -/
theorem c6_amended_update_epoch_average
    (num_epochs batch_size num_minibatches : Nat) (losses : Nat → ℚ)
    (hpos : 0 < batch_size) (hnm : 0 < num_minibatches)
    (hdvd : num_minibatches ∣ batch_size) :
    ff_num_minibatches_yielded batch_size num_minibatches = num_minibatches ∧
    ppo_update_average num_epochs batch_size num_minibatches losses
      = (((List.range (num_epochs
            * ff_num_minibatches_yielded batch_size num_minibatches)).map
          losses).sum)
        / ((num_epochs
            * ff_num_minibatches_yielded batch_size num_minibatches : Nat) : ℚ) ∧
    (∀ perm : List Nat, perm.length = batch_size →
      (batch_sampler_chunks
        (ff_derived_minibatch_size batch_size num_minibatches) perm).length
      = ff_num_minibatches_yielded batch_size num_minibatches) := by
  obtain ⟨q, rfl⟩ := hdvd
  have hq : 0 < q := by
    rcases Nat.eq_zero_or_pos q with h | h
    · subst h
      simp at hpos
    · exact h
  have hsize : ff_derived_minibatch_size (num_minibatches * q) num_minibatches
      = q := by
    rw [ff_derived_minibatch_size, Nat.mul_div_cancel_left q hnm]
  have hcount : ff_num_minibatches_yielded (num_minibatches * q) num_minibatches
      = num_minibatches := by
    rw [ff_num_minibatches_yielded, hsize, Nat.mul_div_cancel _ hq]
  refine ⟨hcount, ?_, ?_⟩
  · rw [ppo_update_average, hcount]
  · intro perm hlen
    rw [batch_sampler_chunks_length, hlen, hsize, hcount,
      Nat.mul_div_cancel _ hq]

/-- Witness for the amended C6 with two epochs over `4` transitions split
into `2` minibatches of derived size `2`. -/
theorem c6_amended_witness :
    ff_num_minibatches_yielded 4 2 = 2 ∧
    ppo_update_average 2 4 2 (fun i => (i : ℚ))
      = (((List.range (2 * ff_num_minibatches_yielded 4 2)).map
          (fun i => (i : ℚ))).sum)
        / ((2 * ff_num_minibatches_yielded 4 2 : Nat) : ℚ) ∧
    (∀ perm : List Nat, perm.length = 4 →
      (batch_sampler_chunks (ff_derived_minibatch_size 4 2) perm).length
      = ff_num_minibatches_yielded 4 2) :=
  c6_amended_update_epoch_average 2 4 2 (fun i => (i : ℚ)) (by norm_num)
    (by norm_num) (by norm_num)

/-- Optimizer parameter group as configured in `PPO.__init__` (`ppo.py`
lines 59-74): its name tag and its learning rate. -/
structure ParamGroup where
  name : String
  lr : ℚ

/-- Tag of the actor parameter group (`ppo.py` line 12). -/
def OPT_ACTOR_PARAMS : String := "params:actor"

/-- Tag of the critic parameter group (`ppo.py` line 13). -/
def OPT_CRITIC_PARAMS : String := "params:critic"

/-- Embedding of `PPO.update_linear_schedule` (`ppo.py` lines 77-96): every
parameter group whose name differs from `OPT_ACTOR_PARAMS` is skipped
(`continue`); a group tagged as the actor group gets learning rate
`initial_actor_lr - initial_actor_lr * (current_epoch / total_epochs)`. -/
def update_linear_schedule (initial_actor_lr : ℚ)
    (param_groups : List ParamGroup)
    (current_epoch total_epochs : Nat) : List ParamGroup :=
  param_groups.map (fun g =>
    if g.name ≠ OPT_ACTOR_PARAMS then g
    else { name := g.name,
           lr := initial_actor_lr
             - initial_actor_lr
               * ((current_epoch : ℚ) / (total_epochs : ℚ)) })

/-- C9: for every `current_epoch` and positive `total_epochs`,
`update_linear_schedule` sets the learning rate of every group tagged as the
actor group to `initial_actor_lr * (1 - current_epoch / total_epochs)` — a
linear decay from the initial value toward zero as the ratio approaches 1 —
and returns every other group (in particular the critic group) unchanged. -/
theorem c9_update_linear_schedule_actor_only
    (initial_actor_lr : ℚ) (param_groups : List ParamGroup)
    (current_epoch total_epochs : Nat) (htot : 0 < total_epochs) :
    update_linear_schedule initial_actor_lr param_groups current_epoch
        total_epochs
      = param_groups.map (fun g =>
          if g.name = OPT_ACTOR_PARAMS then
            { name := g.name,
              lr := initial_actor_lr
                * (1 - (current_epoch : ℚ) / (total_epochs : ℚ)) }
          else g) := by
  unfold update_linear_schedule
  apply List.map_congr_left
  intro g _
  by_cases h : g.name = OPT_ACTOR_PARAMS
  · rw [if_neg (not_not_intro h), if_pos h]
    have : initial_actor_lr
        - initial_actor_lr * ((current_epoch : ℚ) / (total_epochs : ℚ))
      = initial_actor_lr
        * (1 - (current_epoch : ℚ) / (total_epochs : ℚ)) := by ring
    rw [this]
  · rw [if_pos h, if_neg h]

/-- Witness for C9 at epoch 1 of 2: the actor group's learning rate halves
while the critic group's is untouched. -/
theorem c9_witness :
    update_linear_schedule 1 [⟨OPT_ACTOR_PARAMS, 1⟩, ⟨OPT_CRITIC_PARAMS, 2⟩] 1 2
      = [⟨OPT_ACTOR_PARAMS, 1 / 2⟩, ⟨OPT_CRITIC_PARAMS, 2⟩] := by
  rw [c9_update_linear_schedule_actor_only 1
    [⟨OPT_ACTOR_PARAMS, 1⟩, ⟨OPT_CRITIC_PARAMS, 2⟩] 1 2 (by norm_num)]
  simp only [List.map_cons, List.map_nil, if_true]
  rw [if_neg (by decide : ¬ (OPT_CRITIC_PARAMS = OPT_ACTOR_PARAMS))]
  norm_num [ParamGroup.mk.injEq]

/-- Arguments of one `RolloutStorage.insert` call.  Each argument stands for
the full row (all `N` environments and all feature components) that `copy_`
writes into one time slot; rows are copied atomically, so the row type is an
abstract `α`. -/
structure InsertArgs (α : Type) where
  obs : α
  recurrent_hidden_states : α
  actions : α
  action_log_probs : α
  value_preds : α
  rewards : α
  done_masks : α
  time_limit_masks : α

/-- Time-indexed state of `RolloutStorage` (`rollout_storage.py` lines
13-55): each storage tensor is modelled as a function from the time index to
the stored row; `step` is the write cursor and `rollout_steps` is `T`. -/
structure RolloutStorage (α : Type) where
  obs : Nat → α
  recurrent_hidden_states : Nat → α
  rewards : Nat → α
  value_preds : Nat → α
  action_log_probs : Nat → α
  actions : Nat → α
  done_masks : Nat → α
  time_limit_masks : Nat → α
  rollout_steps : Nat
  step : Nat

/-- Embedding of `RolloutStorage.insert` (`rollout_storage.py` lines
105-114): state-like rows are written at `step + 1`, action/reward-like rows
at `step`, and the cursor advances to `(step + 1) % rollout_steps`. -/
def RolloutStorage.insert {α : Type} (s : RolloutStorage α)
    (a : InsertArgs α) : RolloutStorage α where
  obs := Function.update s.obs (s.step + 1) a.obs
  recurrent_hidden_states :=
    Function.update s.recurrent_hidden_states (s.step + 1)
      a.recurrent_hidden_states
  actions := Function.update s.actions s.step a.actions
  action_log_probs :=
    Function.update s.action_log_probs s.step a.action_log_probs
  value_preds := Function.update s.value_preds s.step a.value_preds
  rewards := Function.update s.rewards s.step a.rewards
  done_masks := Function.update s.done_masks (s.step + 1) a.done_masks
  time_limit_masks :=
    Function.update s.time_limit_masks (s.step + 1) a.time_limit_masks
  rollout_steps := s.rollout_steps
  step := (s.step + 1) % s.rollout_steps

/-- Sequence of `k` successive `insert` calls with arguments
`args 0, …, args (k-1)`. -/
def RolloutStorage.insertSeq {α : Type} (s : RolloutStorage α)
    (args : Nat → InsertArgs α) : Nat → RolloutStorage α
  | 0 => s
  | k + 1 => (RolloutStorage.insertSeq s args k).insert (args k)

theorem insertSeq_rollout_steps {α : Type} (s : RolloutStorage α)
    (args : Nat → InsertArgs α) :
    ∀ k, (s.insertSeq args k).rollout_steps = s.rollout_steps := by
  intro k
  induction k with
  | zero => rfl
  | succ k ih =>
    show (s.insertSeq args k).rollout_steps = s.rollout_steps
    exact ih

theorem insertSeq_step {α : Type} (s : RolloutStorage α)
    (args : Nat → InsertArgs α) (hT : s.step < s.rollout_steps) :
    ∀ k, (s.insertSeq args k).step = (s.step + k) % s.rollout_steps := by
  intro k
  induction k with
  | zero =>
    exact (Nat.mod_eq_of_lt hT).symm
  | succ k ih =>
    show ((s.insertSeq args k).step + 1) % (s.insertSeq args k).rollout_steps
        = (s.step + (k + 1)) % s.rollout_steps
    rw [ih, insertSeq_rollout_steps, Nat.mod_add_mod,
      show s.step + k + 1 = s.step + (k + 1) by omega]

/-- C8: every `insert` writes observations, recurrent states, done masks and
time-limit masks at index `write_cursor + 1` and actions, action
log-probabilities, value predictions and rewards at index `write_cursor`,
then advances `write_cursor` to `(write_cursor + 1) % T`; consequently
`write_cursor < T` after every insert (for `T > 0`), and after exactly `T`
inserts the cursor returns to its pre-rollout value. -/
theorem c8_insert_cursor_cycle {α : Type} (s : RolloutStorage α)
    (a : InsertArgs α) (args : Nat → InsertArgs α) :
    ((s.insert a).obs = Function.update s.obs (s.step + 1) a.obs ∧
      (s.insert a).recurrent_hidden_states
        = Function.update s.recurrent_hidden_states (s.step + 1)
            a.recurrent_hidden_states ∧
      (s.insert a).done_masks
        = Function.update s.done_masks (s.step + 1) a.done_masks ∧
      (s.insert a).time_limit_masks
        = Function.update s.time_limit_masks (s.step + 1)
            a.time_limit_masks) ∧
    ((s.insert a).actions = Function.update s.actions s.step a.actions ∧
      (s.insert a).action_log_probs
        = Function.update s.action_log_probs s.step a.action_log_probs ∧
      (s.insert a).value_preds
        = Function.update s.value_preds s.step a.value_preds ∧
      (s.insert a).rewards = Function.update s.rewards s.step a.rewards) ∧
    (s.insert a).step = (s.step + 1) % s.rollout_steps ∧
    (0 < s.rollout_steps → (s.insert a).step < s.rollout_steps) ∧
    (s.step < s.rollout_steps →
      (s.insertSeq args s.rollout_steps).step = s.step) := by
  refine ⟨⟨rfl, rfl, rfl, rfl⟩, ⟨rfl, rfl, rfl, rfl⟩, rfl, ?_, ?_⟩
  · intro hT
    exact Nat.mod_lt _ hT
  · intro hs
    rw [insertSeq_step s args hs, Nat.add_mod_right, Nat.mod_eq_of_lt hs]

/-- Concrete two-step storage over `Nat` rows, used by witnesses. -/
def exStorage : RolloutStorage Nat where
  obs := fun _ => 0
  recurrent_hidden_states := fun _ => 0
  rewards := fun _ => 0
  value_preds := fun _ => 0
  action_log_probs := fun _ => 0
  actions := fun _ => 0
  done_masks := fun _ => 1
  time_limit_masks := fun _ => 1
  rollout_steps := 2
  step := 0

/-- Concrete insert arguments used by witnesses. -/
def exArgs : Nat → InsertArgs Nat := fun _ => ⟨1, 2, 3, 4, 5, 6, 7, 8⟩

/-- Witness for C8 on the concrete two-step storage: the cursor advances to
`(0 + 1) % 2 = 1 < 2`, and after `T = 2` inserts it is back at `0`. -/
theorem c8_witness :
    (exStorage.insert (exArgs 0)).step
        = (exStorage.step + 1) % exStorage.rollout_steps ∧
    (exStorage.insert (exArgs 0)).step < exStorage.rollout_steps ∧
    (exStorage.insertSeq exArgs exStorage.rollout_steps).step
        = exStorage.step := by
  obtain ⟨-, -, h1, h2, h3⟩ :=
    c8_insert_cursor_cycle exStorage (exArgs 0) exArgs
  exact ⟨h1, h2 (by decide), h3 (by decide)⟩

/-- C10: `insert` never modifies slot 0 of any `T+1`-length array: the
state-like rows are written only at index `write_cursor + 1`, which lies in
`[1, T]` whenever `write_cursor < T`, so the boundary state stored in slot 0
of the observation, recurrent-state, done-mask and time-limit-mask arrays is
preserved across any number of inserts — in particular across an entire
`T`-step insert sequence. -/
theorem c10_insert_preserves_slot_zero {α : Type} (s : RolloutStorage α)
    (args : Nat → InsertArgs α) :
    (s.step < s.rollout_steps →
      1 ≤ s.step + 1 ∧ s.step + 1 ≤ s.rollout_steps) ∧
    ∀ k, (s.insertSeq args k).obs 0 = s.obs 0 ∧
      (s.insertSeq args k).recurrent_hidden_states 0
        = s.recurrent_hidden_states 0 ∧
      (s.insertSeq args k).done_masks 0 = s.done_masks 0 ∧
      (s.insertSeq args k).time_limit_masks 0 = s.time_limit_masks 0 := by
  refine ⟨fun h => ⟨by omega, by omega⟩, ?_⟩
  intro k
  induction k with
  | zero => exact ⟨rfl, rfl, rfl, rfl⟩
  | succ k ih =>
    obtain ⟨h1, h2, h3, h4⟩ := ih
    refine ⟨?_, ?_, ?_, ?_⟩
    · rw [show (s.insertSeq args (k + 1)).obs
          = Function.update (s.insertSeq args k).obs
              ((s.insertSeq args k).step + 1) ((args k).obs) from rfl,
        Function.update_noteq (Ne.symm (Nat.succ_ne_zero _))]
      exact h1
    · rw [show (s.insertSeq args (k + 1)).recurrent_hidden_states
          = Function.update (s.insertSeq args k).recurrent_hidden_states
              ((s.insertSeq args k).step + 1)
              ((args k).recurrent_hidden_states) from rfl,
        Function.update_noteq (Ne.symm (Nat.succ_ne_zero _))]
      exact h2
    · rw [show (s.insertSeq args (k + 1)).done_masks
          = Function.update (s.insertSeq args k).done_masks
              ((s.insertSeq args k).step + 1) ((args k).done_masks) from rfl,
        Function.update_noteq (Ne.symm (Nat.succ_ne_zero _))]
      exact h3
    · rw [show (s.insertSeq args (k + 1)).time_limit_masks
          = Function.update (s.insertSeq args k).time_limit_masks
              ((s.insertSeq args k).step + 1)
              ((args k).time_limit_masks) from rfl,
        Function.update_noteq (Ne.symm (Nat.succ_ne_zero _))]
      exact h4

/-- Witness for C10 on the concrete two-step storage: after a full `T = 2`
insert sequence, slot 0 of all four state-like arrays is untouched, and the
write index `0 + 1` lies in `[1, 2]`. -/
theorem c10_witness :
    (1 ≤ exStorage.step + 1 ∧ exStorage.step + 1 ≤ exStorage.rollout_steps) ∧
    (exStorage.insertSeq exArgs 2).obs 0 = exStorage.obs 0 ∧
    (exStorage.insertSeq exArgs 2).recurrent_hidden_states 0
      = exStorage.recurrent_hidden_states 0 ∧
    (exStorage.insertSeq exArgs 2).done_masks 0 = exStorage.done_masks 0 ∧
    (exStorage.insertSeq exArgs 2).time_limit_masks 0
      = exStorage.time_limit_masks 0 :=
  ⟨(c10_insert_preserves_slot_zero exStorage exArgs).1 (by decide),
    (c10_insert_preserves_slot_zero exStorage exArgs).2 2⟩

end PPOParallel
